import Mathlib

/-!
Verification of the deploy/redeploy pipeline of the `ao` command-line client:
resolution, partitioning, concurrent dispatch and result aggregation.

The Go source is embedded shallowly: pure helpers become Lean functions,
goroutine fan-out/fan-in over a channel is modelled by mapping each partition
to its (unique) emitted result bundle and quantifying theorems over the
possible arrival orders (permutations), and fallible calls return `Except`.
The external remote deploy/redeploy client is a function parameter.
-/

/-! ## Go string primitives -/

/-- Byte-wise lexicographic comparison of character lists, the order computed
by the Go standard library function `strings.Compare` (restricted to the
ASCII strings occurring here, where byte order and character order agree).
`lexLe a b` holds exactly when `strings.Compare(a, b) < 1`, i.e. `a <= b`. -/
def lexLe : List Char → List Char → Bool
  | [], _ => true
  | _ :: _, [] => false
  | x :: xs, y :: ys =>
    if x.toNat < y.toNat then true
    else if y.toNat < x.toNat then false
    else lexLe xs ys

/-- The comparator `strings.Compare(a, b) < 1` used by the sort calls in
`cmd/deploy.go` and in `getRedeployResultTableContent`. -/
def strLe (a b : String) : Bool := lexLe a.toList b.toList

/-- Does the character list `pat` occur at the head of `text`? Helper for the
embedding of the Go standard library function `strings.Contains`. -/
def startsWithChars : List Char → List Char → Bool
  | [], _ => true
  | _ :: _, [] => false
  | x :: xs, y :: ys => x == y && startsWithChars xs ys

/-- Does `pat` occur contiguously anywhere inside the second list? -/
def containsChars (pat : List Char) : List Char → Bool
  | [] => pat.isEmpty
  | y :: rest => startsWithChars pat (y :: rest) || containsChars pat rest

/-- The Go standard library function `strings.Contains(s, sub)`. -/
def strContains (s sub : String) : Bool := containsChars sub.toList s.toList

/-- Character-list index search backing `stringsIndexByte`. -/
def indexOfChar : List Char → Char → Int
  | [], _ => -1
  | x :: xs, c =>
    if x == c then 0
    else
      let r := indexOfChar xs c
      if r < 0 then -1 else r + 1

/-- The Go standard library function `strings.IndexByte(s, c)`: index of the
first occurrence of `c` in `s`, `-1` when absent (for the ASCII separator
character used here, byte index and character index agree). -/
def stringsIndexByte (s : String) (c : Char) : Int := indexOfChar s.toList c

/-! ## Data model

The `pkg/client` and `pkg/config` type declarations are not part of the
sources at hand; the structures below carry exactly the fields that the
pipeline code in `cmd/deploy.go` and the redeploy command reads and writes.
-/

/-- `config.Cluster` as read by the pipeline: looked up by name, probed for
reachability, and carrying connection data. -/
structure Cluster where
  name : String
  booberUrl : String
  token : String
  reachable : Bool
deriving DecidableEq, Repr

/-- `client.DeploySpec` as read by `performDeploy` and `errorDeployResults`:
only the values `applicationDeploymentRef` and `affiliation` are consulted. -/
structure DeploySpec where
  applicationDeploymentRef : String
  affiliation : String
deriving DecidableEq, Repr

/-- The `requestPartition` value consumed by `performDeploy`,
`errorDeployResults` and `deployToReachableClusters` in `cmd/deploy.go`:
the owning cluster and the ordered deployment specs of one destination. -/
structure RequestPartition where
  cluster : Cluster
  deploySpecList : List DeploySpec
deriving DecidableEq, Repr

/-- The deploy payload wire shape built by `client.NewDeployPayload`:
application identifiers plus the shared file-to-JSON override map. -/
structure DeployPayload where
  applicationIds : List String
  overrides : List (String × String)
deriving DecidableEq, Repr

/-- `client.ApplicationDeploymentRef`: an `env/app` identifier split into its
environment and application segments. -/
structure ApplicationDeploymentRef where
  environment : String
  application : String
deriving DecidableEq, Repr

/-- Splits a textual `env/app` identifier at its first slash, the shape the
specification gives for `ApplicationIdentifier` (the constructor
`client.NewApplicationDeploymentRef` is external to these sources). -/
def NewApplicationDeploymentRef (s : String) : ApplicationDeploymentRef :=
  let idx := stringsIndexByte s '/'
  if idx < 0 then ⟨"", s⟩
  else ⟨String.mk (s.toList.take idx.toNat), String.mk (s.toList.drop (idx.toNat + 1))⟩

/-- The fields of `client.DeploymentSpec` that `errorDeployResults` writes
(keys `cluster`, `name`, `version`, `envName`) and the result table reads
through its accessors. -/
structure DeploymentSpec where
  cluster : String
  name : String
  version : String
  envName : String
deriving DecidableEq, Repr

/-- `client.DeployResult`: the per-application outcome of a deploy. -/
structure DeployResult where
  deployId : String
  ignored : Bool
  success : Bool
  reason : String
  deploymentSpec : DeploymentSpec
deriving DecidableEq, Repr

/-- `client.DeployResults`: the result bundle one partition task emits. -/
structure DeployResults where
  message : String
  success : Bool
  results : List DeployResult
deriving DecidableEq, Repr

/-! ## Deploy dispatch (`cmd/deploy.go`) -/

/-- `client.NewDeployPayload(applicationList, overrideConfig)`. -/
def NewDeployPayload (applicationList : List String)
    (overrideConfig : List (String × String)) : DeployPayload :=
  ⟨applicationList, overrideConfig⟩

/-- `errorDeployResults` from `cmd/deploy.go`: fabricates one failed
`DeployResult` per spec of the partition, with the given reason and the
sentinel deploy id `"-"`. -/
def errorDeployResults (reason : String) (partition : RequestPartition) : DeployResults :=
  let applicationResults := partition.deploySpecList.map (fun spec =>
    let applicationDeploymentRef := NewApplicationDeploymentRef spec.applicationDeploymentRef
    { deployId := "-"
      ignored := false
      success := false
      reason := reason
      deploymentSpec :=
        { cluster := partition.cluster.name
          name := applicationDeploymentRef.application
          version := "-"
          envName := spec.affiliation ++ "-" ++ applicationDeploymentRef.environment } : DeployResult })
  { message := reason, success := false, results := applicationResults }

/-- `performDeploy` from `cmd/deploy.go`. The goroutine body sends exactly one
bundle on the collection channel and returns; here that bundle is the return
value. The remote call `deployClient.Deploy(payload)` is the function
parameter `deployClient`, its Go `(result, err)` pair rendered as `Except`. -/
def performDeploy (deployClient : DeployPayload → Except String DeployResults)
    (partition : RequestPartition) (overrideConfig : List (String × String)) : DeployResults :=
  if !partition.cluster.reachable then
    errorDeployResults "Cluster is not reachable" partition
  else
    let applicationList := partition.deploySpecList.map (·.applicationDeploymentRef)
    let payload := NewDeployPayload applicationList overrideConfig
    match deployClient payload with
    | .error e => errorDeployResults e partition
    | .ok result => result

/-- `deployToReachableClusters` from `cmd/deploy.go`: one goroutine per
partition, then a receive loop that blocks for exactly `len(partitions)`
bundles and returns `(allResults, nil)`. The bundles collected in arrival
order form a permutation of the per-partition bundles listed here; theorems
about arrival-order independence quantify over that permutation. The Go map
holding the partitions is rendered as a list of its values. -/
def deployToReachableClusters
    (getClient : RequestPartition → DeployPayload → Except String DeployResults)
    (partitions : List RequestPartition) (overrideConfig : List (String × String)) :
    Except String (List DeployResults) :=
  .ok (partitions.map (fun partition => performDeploy (getClient partition) partition overrideConfig))

/-! ## Result aggregation and reporting (`cmd/deploy.go`) -/

/-- Single insertion step of the insertion sort performed by the Go standard
library on short slices: the new element moves left past every element of the
already sorted prefix for which `le new prev` holds, so it comes to rest
before the first element `y` of the prefix with `le x y`. -/
def goInsert (le : α → α → Bool) (x : α) : List α → List α
  | [] => [x]
  | y :: ys => if le x y then x :: y :: ys else y :: goInsert le x ys

/-- The Go standard library call `sort.Slice(l, less)` as it executes on the
slice lengths arising here: for slices shorter than twelve elements Go
delegates to insertion sort, inserting each element in turn (left to right)
into the sorted prefix. `sort.Slice` is documented as not stable. -/
def goSortSlice (le : α → α → Bool) (l : List α) : List α :=
  l.foldl (fun sortedPre x => goInsert le x sortedPre) []

/-- The comparator literal of the `sort.Slice` call in `printDeployResult`:
`strings.Compare(nameA, nameB) < 1` on the application names. -/
def deployResultLess (i j : DeployResult) : Bool :=
  strLe i.deploymentSpec.name j.deploymentSpec.name

/-- The `sort.Slice(results, ...)` call of `printDeployResult`. -/
def sortDeployResults (results : List DeployResult) : List DeployResult :=
  goSortSlice deployResultLess results

/-- `getDeployResultTable` from `cmd/deploy.go`: one formatted row per
result not flagged `Ignored` (the loop `continue`), plus the header. -/
def getDeployResultTable (deploys : List DeployResult) : String × List String :=
  let rows := (deploys.filter (fun item => !item.ignored)).map (fun item =>
    let status := if !item.success then "\x1b[31mFailed\x1b[0m" else "\x1b[32mDeployed\x1b[0m"
    status ++ "\t" ++ item.deploymentSpec.cluster ++ "\t" ++ item.deploymentSpec.envName
      ++ "\t" ++ item.deploymentSpec.name ++ "\t" ++ item.deploymentSpec.version
      ++ "\t" ++ item.deployId ++ "\t" ++ item.reason)
  ("\x1b[00mSTATUS\x1b[0m\tCLUSTER\tENVIRONMENT\tAPPLICATION\tVERSION\tDEPLOY_ID\tMESSAGE", rows)

/-- Outcome of a command function returning Go `error`: `nil` or a message. -/
inductive CommandOutcome where
  | ok
  | error (msg : String)
deriving DecidableEq, Repr

/-- `printDeployResult` from `cmd/deploy.go`: flattens the bundles, rejects an
empty run, sorts by application name, prints the table unless every row was
filtered out as ignored, and fails on the first unsuccessful entry. -/
def printDeployResult (result : List DeployResults) : CommandOutcome :=
  let results := (result.map (fun r => r.results)).flatten
  if results.length = 0 then .error "No deploys were made"
  else
    let sorted := sortDeployResults results
    let rows := (getDeployResultTable sorted).2
    if rows.length = 0 then .ok
    else
      match sorted.find? (fun deploy => !deploy.success) with
      | some _ => .error "One or more deploys failed"
      | none => .ok

/-! ## Redeploy dispatch and partitioning (redeploy command source) -/

/-- The per-deployment reference consumed by the redeploy pipeline: cluster
name, namespace and application name (fields read by
`createDeploymentPartitions` and `performRedeploy`). -/
structure DeploymentInfo where
  clusterName : String
  namespaceName : String
  name : String
deriving DecidableEq, Repr

/-- The shared `Partition` header: owning cluster, AuroraConfig name and
optional override token. -/
structure Partition where
  cluster : Cluster
  auroraConfigName : String
  overrideToken : String
deriving DecidableEq, Repr

/-- `DeploymentPartition`: one destination with its deployment references. -/
structure DeploymentPartition where
  deploymentInfos : List DeploymentInfo
  partition : Partition
deriving DecidableEq, Repr

/-- `client.ApplicationRef` (namespace, name). -/
structure ApplicationRef where
  namespaceName : String
  name : String
deriving DecidableEq, Repr

/-- `client.RedeployResult`: per-application redeploy outcome. -/
structure RedeployResult where
  success : Bool
  reason : String
  applicationRef : ApplicationRef
deriving DecidableEq, Repr

/-- `client.RedeployResults`: the bundle one redeploy partition task emits. -/
structure RedeployResults where
  message : String
  success : Bool
  results : List RedeployResult
deriving DecidableEq, Repr

/-- The redeploy payload wire shape built by `client.NewRedeployPayload`. -/
structure RedeployPayload where
  applicationDeploymentRefs : List ApplicationRef
deriving DecidableEq, Repr

/-- The Go type named partialRedeployResult: a partition paired with its result bundle (capitalized here). -/
structure PartialRedeployResult where
  partition : DeploymentPartition
  redeployResults : RedeployResults
deriving DecidableEq, Repr

/-- `newDeploymentPartition` from the redeploy command source. -/
def newDeploymentPartition (deploymentInfos : List DeploymentInfo) (cluster : Cluster)
    (auroraConfig overrideToken : String) : DeploymentPartition :=
  { deploymentInfos := deploymentInfos
    partition :=
      { cluster := cluster
        auroraConfigName := auroraConfig
        overrideToken := overrideToken } }

/-- `newPartialRedeployResults` from the redeploy command source. -/
def newPartialRedeployResults (partition : DeploymentPartition)
    (redeployResults : RedeployResults) : PartialRedeployResult :=
  { partition := partition, redeployResults := redeployResults }

/-- The local key type `deploymentPartitionID` of `createDeploymentPartitions`:
the destination pair (namespace, cluster name). -/
structure deploymentPartitionID where
  namespaceName : String
  clusterName : String
deriving DecidableEq, Repr

/-- Appends `info` to the `DeploymentInfos` of the entry keyed `k`
(`partitionMap[partitionID].DeploymentInfos = append(...)`). The entry is
present whenever this is called. -/
def appendInfoToPartition (pm : List (deploymentPartitionID × DeploymentPartition))
    (k : deploymentPartitionID) (info : DeploymentInfo) :
    List (deploymentPartitionID × DeploymentPartition) :=
  match pm with
  | [] => []
  | (k', p) :: rest =>
    if k' = k then
      (k', { p with deploymentInfos := p.deploymentInfos ++ [info] }) :: rest
    else
      (k', p) :: appendInfoToPartition rest k info

/-- Does the partition map already hold the key? -/
def containsPartitionID (pm : List (deploymentPartitionID × DeploymentPartition))
    (k : deploymentPartitionID) : Bool :=
  pm.any (fun e => e.1 = k)

/-- The cluster registry lookup `clusters[clusterName]` (the Go map rendered
as an association list). -/
def lookupCluster (clusters : List (String × Cluster)) (clusterName : String) : Option Cluster :=
  (clusters.find? (fun e => e.1 = clusterName)).map (fun e => e.2)

/-- The loop body of `createDeploymentPartitions`: on first encounter of a
destination key the cluster is resolved (failing the whole run when the
registry lacks it) and an empty partition is created; then the info is
appended to its partition. -/
def createDeploymentPartitionsLoop (auroraConfig overrideToken : String)
    (clusters : List (String × Cluster))
    (pm : List (deploymentPartitionID × DeploymentPartition)) :
    List DeploymentInfo → Except String (List (deploymentPartitionID × DeploymentPartition))
  | [] => .ok pm
  | info :: rest =>
    let partitionID : deploymentPartitionID := ⟨info.namespaceName, info.clusterName⟩
    if containsPartitionID pm partitionID then
      createDeploymentPartitionsLoop auroraConfig overrideToken clusters
        (appendInfoToPartition pm partitionID info) rest
    else
      match lookupCluster clusters info.clusterName with
      | none => .error ("No such cluster " ++ info.clusterName)
      | some cluster =>
        createDeploymentPartitionsLoop auroraConfig overrideToken clusters
          (appendInfoToPartition
            (pm ++ [(partitionID, newDeploymentPartition [] cluster auroraConfig overrideToken)])
            partitionID info) rest

/-- `createDeploymentPartitions` from the redeploy command source. The Go
function finally copies the map values into a slice in the unspecified Go map
iteration order; the model keeps the key-to-partition association (in first
encounter order), which fixes the same set of partitions and the same
membership. -/
def createDeploymentPartitions (auroraConfig overrideToken : String)
    (clusters : List (String × Cluster)) (deployInfos : List DeploymentInfo) :
    Except String (List (deploymentPartitionID × DeploymentPartition)) :=
  createDeploymentPartitionsLoop auroraConfig overrideToken clusters [] deployInfos

/-- `client.NewRedeployPayload(applicationRefs)`. -/
def NewRedeployPayload (applicationRefs : List ApplicationRef) : RedeployPayload :=
  ⟨applicationRefs⟩

/-- `getErrorRedeployResults` from the redeploy command source: one failed
`RedeployResult` per deployment reference of the partition. -/
def getErrorRedeployResults (reason : String) (partition : DeploymentPartition) :
    PartialRedeployResult :=
  let results := partition.deploymentInfos.map (fun info =>
    { success := false
      reason := reason
      applicationRef := { namespaceName := info.namespaceName, name := info.name } : RedeployResult })
  newPartialRedeployResults partition
    { message := reason, success := false, results := results }

/-- `performRedeploy` from the redeploy command source; like `performDeploy`,
the single bundle the goroutine sends is the return value and the remote call
`deployClient.Redeploy(...)` is the function parameter. -/
def performRedeploy (deployClient : RedeployPayload → Except String RedeployResults)
    (partition : DeploymentPartition) : PartialRedeployResult :=
  if !partition.partition.cluster.reachable then
    getErrorRedeployResults "Cluster is not reachable" partition
  else
    let applicationRefs := partition.deploymentInfos.map (fun info =>
      { namespaceName := info.namespaceName, name := info.name : ApplicationRef })
    match deployClient (NewRedeployPayload applicationRefs) with
    | .error e => getErrorRedeployResults e partition
    | .ok results => newPartialRedeployResults partition results

/-- `redeployFromReachableClusters` from the redeploy command source: fan-out
of one task per partition, fan-in of exactly one bundle per partition,
returning `(allResults, nil)`; arrival order is a permutation of this list. -/
def redeployFromReachableClusters
    (getClient : Partition → RedeployPayload → Except String RedeployResults)
    (partitions : List DeploymentPartition) :
    Except String (List PartialRedeployResult) :=
  .ok (partitions.map (fun partition => performRedeploy (getClient partition.partition) partition))

/-! ## Exclude filtering, override parsing, fuzzy resolution -/

/-- `filterExcludes` from the deploy command source: the application list is
copied, then for each exclude expression in the order supplied the surviving
applications are narrowed in place to those the compiled pattern does not
match. Compiling a regular expression (`regexp.Compile`) is the external
parameter `compile`; a pattern it rejects aborts with that error. -/
def filterExcludes (compile : String → Option (String → Bool))
    (expressions applications : List String) : Except String (List String) :=
  expressions.foldlM (fun apps expr =>
    match compile expr with
    | none => .error ("error parsing regexp: " ++ expr)
    | some r => .ok (apps.filter (fun app => !r app))) applications

/-- Outcome of a Go function that can return a value, return an error, or
terminate abnormally with a runtime panic. -/
inductive GoEval (α : Type) where
  | ok (val : α)
  | err (msg : String)
  | panics (msg : String)
deriving DecidableEq, Repr

/-- Go map insertion `returnMap[filename] = jsonOverride` on the association
list rendering of `map[string]string`: overwrite when present, append when
new. -/
def goMapInsert (m : List (String × String)) (k v : String) : List (String × String) :=
  if m.any (fun e => e.1 = k) then
    m.map (fun e => if e.1 = k then (k, v) else e)
  else
    m ++ [(k, v)]

/-- The loop of `parseOverride`: each entry is split at the position
`strings.IndexByte(entry, ':')`. When the separator is absent that index is
`-1` and the Go slice expression `overrides[i][:indexByte]` panics with a
slice-bounds error, which the model records as an abnormal termination.
Validity of the JSON payload (`json.Valid`) is the external parameter. -/
def parseOverrideLoop (jsonValid : String → Bool) (returnMap : List (String × String)) :
    List String → GoEval (List (String × String))
  | [] => .ok returnMap
  | o :: rest =>
    let indexByte := stringsIndexByte o ':'
    if indexByte < 0 then
      .panics "runtime error: slice bounds out of range [:-1]"
    else
      let filename := String.mk (o.toList.take indexByte.toNat)
      let jsonOverride := String.mk (o.toList.drop (indexByte.toNat + 1))
      if !jsonValid jsonOverride then
        .err (jsonOverride ++ " is not a valid json")
      else
        parseOverrideLoop jsonValid (goMapInsert returnMap filename jsonOverride) rest

/-- `parseOverride` from `cmd/deploy.go` (the deploy command source has the
same function verbatim): builds the file-to-JSON override map. -/
def parseOverride (jsonValid : String → Bool) (overrides : List String) :
    GoEval (List (String × String)) :=
  parseOverrideLoop jsonValid [] overrides

/-- Errors of the fuzzy resolver. -/
inductive ResolveError where
  | notFound (searchTerm : String)
  | ambiguous (searchTerm : String) (candidates : List String)
deriving DecidableEq, Repr

/-- Modelled from the spec: the fuzzy resolver (package `pkg/fuzzy`, whose
source is not among the files at hand; only its callers are). Following the
specification text: a search term equal to one candidate exactly resolves to
that single candidate regardless of other substring matches; otherwise every
candidate containing the term as a substring is collected, an empty
collection is a not-found error, and a collection of more than one entry is
an ambiguity error carrying the candidate list unless the caller requested
the all-matches mode. -/
def resolve (searchTerm : String) (candidatePool : List String) (allMatches : Bool) :
    Except ResolveError (List String) :=
  if candidatePool.contains searchTerm then .ok [searchTerm]
  else
    let matchList := candidatePool.filter (fun candidate => strContains candidate searchTerm)
    if matchList.isEmpty then .error (.notFound searchTerm)
    else if 1 < matchList.length && !allMatches then .error (.ambiguous searchTerm matchList)
    else .ok matchList


/-! ## Concrete values used by witnesses and counterexamples -/

def wClusterUp : Cluster := { name := "east", booberUrl := "http://east", token := "tok", reachable := true }

def wClusterDown : Cluster := { name := "west", booberUrl := "http://west", token := "tok", reachable := false }

def wSpecA : DeploySpec := { applicationDeploymentRef := "dev/foo", affiliation := "aff" }

def wSpecB : DeploySpec := { applicationDeploymentRef := "dev/bar", affiliation := "aff" }

def wPartitionUp : RequestPartition := { cluster := wClusterUp, deploySpecList := [wSpecA, wSpecB] }

def wPartitionDown : RequestPartition := { cluster := wClusterDown, deploySpecList := [wSpecA] }

def wOkDeployClient : DeployPayload → Except String DeployResults :=
  fun payload => .ok
    { message := "", success := true
      results := payload.applicationIds.map (fun appRef =>
        { deployId := "d1", ignored := false, success := true, reason := ""
          deploymentSpec :=
            { cluster := "east", name := appRef, version := "1", envName := "aff-dev" } }) }

def wFailDeployClient : DeployPayload → Except String DeployResults :=
  fun _ => .error "connection refused"

def wInfoA : DeploymentInfo := { clusterName := "east", namespaceName := "aff-dev", name := "foo" }

def wInfoB : DeploymentInfo := { clusterName := "east", namespaceName := "aff-dev", name := "bar" }

def wInfoC : DeploymentInfo := { clusterName := "east", namespaceName := "aff-prod", name := "baz" }

def wDeploymentPartitionUp : DeploymentPartition :=
  { deploymentInfos := [wInfoA, wInfoB]
    partition := { cluster := wClusterUp, auroraConfigName := "aff", overrideToken := "" } }

def wDeploymentPartitionDown : DeploymentPartition :=
  { deploymentInfos := [wInfoC]
    partition := { cluster := wClusterDown, auroraConfigName := "aff", overrideToken := "" } }

def wOkRedeployClient : RedeployPayload → Except String RedeployResults :=
  fun payload => .ok
    { message := "", success := true
      results := payload.applicationDeploymentRefs.map (fun ref =>
        { success := true, reason := "", applicationRef := ref }) }

def wFailRedeployClient : RedeployPayload → Except String RedeployResults :=
  fun _ => .error "connection refused"

def wClusterRegistry : List (String × Cluster) := [("east", wClusterUp), ("west", wClusterDown)]

def c4infos : List DeploymentInfo := [wInfoA, wInfoC, wInfoB]

def c4pm : List (deploymentPartitionID × DeploymentPartition) :=
  match createDeploymentPartitions "aff" "" wClusterRegistry c4infos with
  | .ok pm => pm
  | .error _ => []

/-- The invariants of the partitioning step: every deployment reference lands
in exactly one partition (the flattened partitions are a permutation of the
input), each partition holds only references of its own destination key, the
destination keys are pairwise distinct, references sharing a destination are
co-located, and references differing in cluster or namespace are separated. -/
def partitionInvariants (deployInfos : List DeploymentInfo)
    (pm : List (deploymentPartitionID × DeploymentPartition)) : Prop :=
  List.Perm ((pm.map (fun e => e.2.deploymentInfos)).flatten) deployInfos
  ∧ (∀ e ∈ pm, ∀ info ∈ e.2.deploymentInfos,
      e.1 = { namespaceName := info.namespaceName, clusterName := info.clusterName })
  ∧ (pm.map Prod.fst).Nodup
  ∧ (∀ e₁ ∈ pm, ∀ e₂ ∈ pm, ∀ i₁ ∈ e₁.2.deploymentInfos, ∀ i₂ ∈ e₂.2.deploymentInfos,
      i₁.clusterName = i₂.clusterName → i₁.namespaceName = i₂.namespaceName → e₁ = e₂)
  ∧ (∀ e₁ ∈ pm, ∀ e₂ ∈ pm, ∀ i₁ ∈ e₁.2.deploymentInfos, ∀ i₂ ∈ e₂.2.deploymentInfos,
      (i₁.clusterName ≠ i₂.clusterName ∨ i₁.namespaceName ≠ i₂.namespaceName) → e₁.2 ≠ e₂.2)

def cexResultA : DeployResult :=
  { deployId := "1", ignored := false, success := true, reason := "first"
    deploymentSpec := { cluster := "east", name := "app", version := "1", envName := "aff-dev" } }

def cexResultB : DeployResult :=
  { deployId := "2", ignored := false, success := true, reason := "second"
    deploymentSpec := { cluster := "west", name := "app", version := "2", envName := "aff-dev" } }

def cexIgnoredResult : DeployResult :=
  { deployId := "-", ignored := true, success := false, reason := "failed but ignored"
    deploymentSpec := { cluster := "east", name := "app", version := "1", envName := "aff-dev" } }

def cexIgnoredBundle : DeployResults :=
  { message := "", success := false, results := [cexIgnoredResult] }

/-! ## Order properties of the Go comparators -/

theorem lexLe_refl : ∀ l : List Char, lexLe l l = true
  | [] => rfl
  | x :: xs => by simp [lexLe, Nat.lt_irrefl, lexLe_refl xs]

theorem lexLe_total : ∀ a b : List Char, lexLe a b = true ∨ lexLe b a = true
  | [], _ => Or.inl rfl
  | _ :: _, [] => Or.inr rfl
  | x :: xs, y :: ys => by
    rcases Nat.lt_trichotomy x.toNat y.toNat with h | h | h
    · left; simp [lexLe, h]
    · rcases lexLe_total xs ys with ih | ih
      · left; simp [lexLe, h, Nat.lt_irrefl, ih]
      · right; simp [lexLe, h, Nat.lt_irrefl, ih]
    · right; simp [lexLe, h]

theorem lexLe_trans : ∀ a b c : List Char, lexLe a b = true → lexLe b c = true → lexLe a c = true
  | [], _, _, _, _ => rfl
  | _ :: _, [], _, h1, _ => by simp [lexLe] at h1
  | _ :: _, _ :: _, [], _, h2 => by simp [lexLe] at h2
  | x :: xs, y :: ys, z :: zs, h1, h2 => by
    simp only [lexLe] at h1 h2 ⊢
    rcases Nat.lt_trichotomy x.toNat y.toNat with hxy | hxy | hxy
    · rcases Nat.lt_trichotomy y.toNat z.toNat with hyz | hyz | hyz
      · rw [if_pos (by omega)]
      · rw [if_pos (by omega)]
      · rw [if_neg (by omega), if_pos (by omega)] at h2
        simp at h2
    · rcases Nat.lt_trichotomy y.toNat z.toNat with hyz | hyz | hyz
      · rw [if_pos (by omega)]
      · rw [if_neg (by omega), if_neg (by omega)] at h1
        rw [if_neg (by omega), if_neg (by omega)] at h2
        rw [if_neg (by omega), if_neg (by omega)]
        exact lexLe_trans xs ys zs h1 h2
      · rw [if_neg (by omega), if_pos (by omega)] at h2
        simp at h2
    · rw [if_neg (by omega), if_pos (by omega)] at h1
      simp at h1

theorem strLe_refl (a : String) : strLe a a = true := lexLe_refl a.toList

theorem strLe_total (a b : String) : strLe a b = true ∨ strLe b a = true :=
  lexLe_total a.toList b.toList

theorem strLe_trans (a b c : String) : strLe a b = true → strLe b c = true → strLe a c = true :=
  lexLe_trans a.toList b.toList c.toList

/-! ## Permutation and sortedness of the embedded slice sort -/

theorem goInsert_perm (le : α → α → Bool) (x : α) :
    ∀ l : List α, List.Perm (goInsert le x l) (x :: l)
  | [] => List.Perm.refl _
  | y :: ys => by
    simp only [goInsert]
    split
    · exact List.Perm.refl _
    · exact ((goInsert_perm le x ys).cons y).trans (List.Perm.swap x y ys)

theorem goSortSlice_foldl_perm (le : α → α → Bool) :
    ∀ (l acc : List α),
      List.Perm (List.foldl (fun sortedPre x => goInsert le x sortedPre) acc l) (acc ++ l)
  | [], acc => by simp
  | x :: xs, acc => by
    simp only [List.foldl_cons]
    exact (goSortSlice_foldl_perm le xs (goInsert le x acc)).trans
      (((goInsert_perm le x acc).append_right xs).trans List.perm_middle.symm)

theorem goSortSlice_perm (le : α → α → Bool) (l : List α) :
    List.Perm (goSortSlice le l) l := by
  simpa using goSortSlice_foldl_perm le l []

theorem goInsert_pairwise (le : α → α → Bool)
    (htot : ∀ a b, le a b = true ∨ le b a = true)
    (htrans : ∀ a b c, le a b = true → le b c = true → le a c = true)
    (x : α) : ∀ l : List α, List.Pairwise (fun a b => le a b = true) l →
      List.Pairwise (fun a b => le a b = true) (goInsert le x l)
  | [], _ => by simp [goInsert]
  | y :: ys, h => by
    simp only [goInsert]
    rcases List.pairwise_cons.mp h with ⟨hy, hys⟩
    split
    case isTrue hxy =>
      refine List.pairwise_cons.mpr ⟨?_, h⟩
      intro z hz
      rcases List.mem_cons.mp hz with rfl | hz
      · exact hxy
      · exact htrans x y z hxy (hy z hz)
    case isFalse hxy =>
      refine List.pairwise_cons.mpr ⟨?_, goInsert_pairwise le htot htrans x ys hys⟩
      intro z hz
      have hz' := (goInsert_perm le x ys).mem_iff.mp hz
      rcases List.mem_cons.mp hz' with rfl | hz'
      · rcases htot z y with h' | h'
        · exact absurd h' hxy
        · exact h'
      · exact hy z hz'

theorem goSortSlice_foldl_pairwise (le : α → α → Bool)
    (htot : ∀ a b, le a b = true ∨ le b a = true)
    (htrans : ∀ a b c, le a b = true → le b c = true → le a c = true) :
    ∀ (l acc : List α), List.Pairwise (fun a b => le a b = true) acc →
      List.Pairwise (fun a b => le a b = true)
        (List.foldl (fun sortedPre x => goInsert le x sortedPre) acc l)
  | [], _, h => h
  | x :: xs, acc, h =>
    goSortSlice_foldl_pairwise le htot htrans xs (goInsert le x acc)
      (goInsert_pairwise le htot htrans x acc h)

theorem goSortSlice_pairwise (le : α → α → Bool)
    (htot : ∀ a b, le a b = true ∨ le b a = true)
    (htrans : ∀ a b c, le a b = true → le b c = true → le a c = true)
    (l : List α) :
    List.Pairwise (fun a b => le a b = true) (goSortSlice le l) :=
  goSortSlice_foldl_pairwise le htot htrans l [] List.Pairwise.nil

theorem deployResultLess_total (a b : DeployResult) :
    deployResultLess a b = true ∨ deployResultLess b a = true :=
  strLe_total a.deploymentSpec.name b.deploymentSpec.name

theorem deployResultLess_trans (a b c : DeployResult) :
    deployResultLess a b = true → deployResultLess b c = true → deployResultLess a c = true :=
  strLe_trans a.deploymentSpec.name b.deploymentSpec.name c.deploymentSpec.name

theorem sortDeployResults_perm (l : List DeployResult) :
    List.Perm (sortDeployResults l) l :=
  goSortSlice_perm deployResultLess l

theorem sortDeployResults_pairwise (l : List DeployResult) :
    List.Pairwise (fun a b => strLe a.deploymentSpec.name b.deploymentSpec.name = true)
      (sortDeployResults l) :=
  goSortSlice_pairwise deployResultLess deployResultLess_total deployResultLess_trans l

/-! ## Aggregation helper lemmas -/

theorem perm_all_eq (p : α → Bool) {l₁ l₂ : List α} (h : List.Perm l₁ l₂) :
    l₁.all p = l₂.all p := by
  rw [Bool.eq_iff_iff, List.all_eq_true, List.all_eq_true]
  exact ⟨fun H x hx => H x (h.mem_iff.mpr hx), fun H x hx => H x (h.mem_iff.mp hx)⟩

theorem getDeployResultTable_rows (deploys : List DeployResult) :
    (getDeployResultTable deploys).2.length
      = (deploys.filter (fun item => !item.ignored)).length := by
  simp [getDeployResultTable]

theorem printDeployResult_ok_iff (result : List DeployResults) :
    ((result.map (fun r => r.results)).flatten = [] →
      printDeployResult result = .error "No deploys were made")
    ∧ (printDeployResult result = .ok ↔
        ((result.map (fun r => r.results)).flatten ≠ []
          ∧ ((result.map (fun r => r.results)).flatten.all (fun r => r.success) = true
            ∨ (result.map (fun r => r.results)).flatten.all (fun r => r.ignored) = true))) := by
  set L := (result.map (fun r => r.results)).flatten with hL
  constructor
  · intro h
    simp only [printDeployResult, ← hL, h]
    rfl
  · by_cases hlen : L.length = 0
    · have hnil : L = [] := List.length_eq_zero.mp hlen
      simp only [printDeployResult, ← hL, hlen, if_pos rfl]
      constructor
      · intro h; cases h
      · rintro ⟨hne, _⟩; exact absurd hnil hne
    · have hne : L ≠ [] := fun h => hlen (h ▸ rfl)
      have hperm := sortDeployResults_perm L
      simp only [printDeployResult, ← hL, if_neg hlen]
      by_cases hig : L.all (fun r => r.ignored) = true
      · have hsig : (sortDeployResults L).all (fun r => r.ignored) = true :=
          (perm_all_eq _ hperm).trans hig
        have hfilter : (sortDeployResults L).filter (fun item => !item.ignored) = [] := by
          rw [List.filter_eq_nil_iff]
          intro a ha
          have := List.all_eq_true.mp hsig a ha
          simp [this]
        rw [getDeployResultTable_rows, hfilter]
        simp only [List.length_nil, if_pos rfl]
        exact ⟨fun _ => ⟨hne, Or.inr hig⟩, fun _ => rfl⟩
      · have hsig : ¬ (sortDeployResults L).all (fun r => r.ignored) = true := by
          rw [perm_all_eq _ hperm]; exact hig
        have hfilter : (sortDeployResults L).filter (fun item => !item.ignored) ≠ [] := by
          intro hnilf
          apply hsig
          rw [List.all_eq_true]
          intro a ha
          have := List.filter_eq_nil_iff.mp hnilf a ha
          simpa using this
        have hrows : ¬ (getDeployResultTable (sortDeployResults L)).2.length = 0 := by
          rw [getDeployResultTable_rows]
          intro h0
          exact hfilter (List.length_eq_zero.mp h0)
        rw [if_neg hrows]
        cases hf : (sortDeployResults L).find? (fun deploy => !deploy.success) with
        | none =>
          have hall : (sortDeployResults L).all (fun r => r.success) = true := by
            rw [List.all_eq_true]
            intro x hx
            have := List.find?_eq_none.mp hf x hx
            simpa using this
          have : L.all (fun r => r.success) = true := by
            rw [← perm_all_eq _ hperm]; exact hall
          exact ⟨fun _ => ⟨hne, Or.inl this⟩, fun _ => rfl⟩
        | some d =>
          have hd : d.success = false := by
            have := List.find?_some hf
            simpa using this
          have hdm : d ∈ L := hperm.mem_iff.mp (List.mem_of_find?_eq_some hf)
          have hnsucc : ¬ L.all (fun r => r.success) = true := by
            rw [List.all_eq_true]
            intro H
            have := H d hdm
            rw [hd] at this
            cases this
          constructor
          · intro h; cases h
          · rintro ⟨_, hsucc | hig2⟩
            · exact absurd hsucc hnsucc
            · exact absurd hig2 hig

/-! ## Claim C5: aggregate outcome -/

/-- C5 (amended): the aggregate outcome of `printDeployResult` is success
exactly when the flattened result list is non-empty and either every entry
succeeded or every entry is flagged ignored; a run with zero results is the
distinct condition "No deploys were made", never success. (The original
claim, success iff non-empty and all succeeded, fails when every entry is
ignored and some ignored entry is failed.) -/
theorem printDeployResult_aggregate_outcome :
    ∀ result : List DeployResults,
      ((result.map (fun r => r.results)).flatten = [] →
        printDeployResult result = .error "No deploys were made")
      ∧ (printDeployResult result = .ok ↔
          ((result.map (fun r => r.results)).flatten ≠ []
            ∧ ((result.map (fun r => r.results)).flatten.all (fun r => r.success) = true
              ∨ (result.map (fun r => r.results)).flatten.all (fun r => r.ignored) = true))) :=
  fun result => printDeployResult_ok_iff result

/-- C5 counterexample: a non-empty run whose only entry is ignored and failed
is reported as overall success, refuting that success requires every entry
to have its success flag set. -/
theorem printDeployResult_ignored_failure_cex :
    printDeployResult [cexIgnoredBundle] = .ok
    ∧ ([cexIgnoredBundle].map (fun r => r.results)).flatten ≠ []
    ∧ ([cexIgnoredBundle].map (fun r => r.results)).flatten.all (fun r => r.success) = false := by
  refine ⟨by decide, by decide, by decide⟩

/-- C5 witness: the amended characterization evaluated at an empty run and at
a successful one-entry run. -/
theorem printDeployResult_aggregate_outcome_witness :
    printDeployResult [] = .error "No deploys were made"
    ∧ printDeployResult [{ message := "", success := true, results := [cexResultA] }] = .ok :=
  ⟨(printDeployResult_aggregate_outcome []).1 rfl,
   (printDeployResult_aggregate_outcome
      [{ message := "", success := true, results := [cexResultA] }]).2.mpr
     ⟨by decide, Or.inl (by decide)⟩⟩

/-! ## Claim C6: sorting of the aggregated result list -/

/-- C6 (amended): the aggregated result list handed to reporting is a
permutation of the flattened results sorted ascending by application name,
but the sort is not stable: with the comparator
`strings.Compare(nameA, nameB) < 1` the insertion step moves an element past
every equal-named element of the sorted prefix, so two entries with equal
names have their bundle-arrival order reversed. -/
theorem sortDeployResults_sorted_perm :
    ∀ results : List DeployResult,
      List.Perm (sortDeployResults results) results
      ∧ List.Pairwise (fun a b => strLe a.deploymentSpec.name b.deploymentSpec.name = true)
          (sortDeployResults results)
      ∧ ∀ a b : DeployResult, a.deploymentSpec.name = b.deploymentSpec.name →
          sortDeployResults [a, b] = [b, a] := by
  intro results
  refine ⟨sortDeployResults_perm results, sortDeployResults_pairwise results, ?_⟩
  intro a b hab
  have hba : deployResultLess b a = true := by
    simp [deployResultLess, hab, strLe_refl]
  simp [sortDeployResults, goSortSlice, goInsert, hba]

/-- C6 counterexample: two distinct results with equal application names are
reversed by the sort, refuting that entries with equal names retain their
relative bundle-arrival order. -/
theorem sortDeployResults_tie_reversal_cex :
    cexResultA.deploymentSpec.name = cexResultB.deploymentSpec.name
    ∧ cexResultA ≠ cexResultB
    ∧ sortDeployResults [cexResultA, cexResultB] = [cexResultB, cexResultA] := by
  refine ⟨rfl, by decide, by decide⟩

/-- C6 witness: the tie-reversal clause evaluated on two concrete equal-named
results, together with the permutation clause on the same input. -/
theorem sortDeployResults_sorted_perm_witness :
    sortDeployResults [cexResultA, cexResultB] = [cexResultB, cexResultA]
    ∧ List.Perm (sortDeployResults [cexResultA, cexResultB]) [cexResultA, cexResultB] :=
  ⟨(sortDeployResults_sorted_perm []).2.2 cexResultA cexResultB rfl,
   (sortDeployResults_sorted_perm [cexResultA, cexResultB]).1⟩

/-! ## Claim C10: all-ignored runs report success -/

/-- C10: when the flattened result list is non-empty and every entry is
flagged ignored, the result table has no rows and `printDeployResult`
returns nil (success) without consulting any success flag: the conclusion
holds for arbitrary success values, in particular for failed entries. -/
theorem printDeployResult_all_ignored_ok :
    ∀ result : List DeployResults,
      (result.map (fun r => r.results)).flatten ≠ [] →
      (∀ r ∈ (result.map (fun r => r.results)).flatten, r.ignored = true) →
      printDeployResult result = .ok
      ∧ (getDeployResultTable
          (sortDeployResults ((result.map (fun r => r.results)).flatten))).2 = [] := by
  intro result hne hig
  constructor
  · exact (printDeployResult_ok_iff result).2.mpr ⟨hne, Or.inr (List.all_eq_true.mpr hig)⟩
  · have hsig : ∀ r ∈ sortDeployResults ((result.map (fun r => r.results)).flatten),
        r.ignored = true := fun r hr =>
      hig r ((sortDeployResults_perm _).mem_iff.mp hr)
    have hfilter : (sortDeployResults ((result.map (fun r => r.results)).flatten)).filter
        (fun item => !item.ignored) = [] := by
      rw [List.filter_eq_nil_iff]
      intro a ha
      simp [hsig a ha]
    simp [getDeployResultTable, hfilter]

/-- C10 witness: a run holding one ignored, failed entry reports success with
an empty table. -/
theorem printDeployResult_all_ignored_ok_witness :
    printDeployResult [cexIgnoredBundle] = .ok
    ∧ (getDeployResultTable
        (sortDeployResults (([cexIgnoredBundle].map (fun r => r.results)).flatten))).2 = [] :=
  printDeployResult_all_ignored_ok [cexIgnoredBundle] (by decide) (by decide)

/-! ## Dispatch helper lemmas -/

theorem errorDeployResults_length (reason : String) (partition : RequestPartition) :
    (errorDeployResults reason partition).results.length = partition.deploySpecList.length := by
  simp [errorDeployResults]

theorem errorDeployResults_mem (reason : String) (partition : RequestPartition) :
    ∀ r ∈ (errorDeployResults reason partition).results,
      r.deployId = "-" ∧ r.ignored = false ∧ r.success = false ∧ r.reason = reason := by
  intro r hr
  simp only [errorDeployResults, List.mem_map] at hr
  obtain ⟨spec, _, rfl⟩ := hr
  exact ⟨rfl, rfl, rfl, rfl⟩

theorem getErrorRedeployResults_length (reason : String) (partition : DeploymentPartition) :
    (getErrorRedeployResults reason partition).redeployResults.results.length
      = partition.deploymentInfos.length := by
  simp [getErrorRedeployResults, newPartialRedeployResults]

theorem getErrorRedeployResults_mem (reason : String) (partition : DeploymentPartition) :
    ∀ r ∈ (getErrorRedeployResults reason partition).redeployResults.results,
      r.success = false ∧ r.reason = reason := by
  intro r hr
  simp only [getErrorRedeployResults, newPartialRedeployResults, List.mem_map] at hr
  obtain ⟨info, _, rfl⟩ := hr
  exact ⟨rfl, rfl⟩

theorem performDeploy_unreachable (deployClient : DeployPayload → Except String DeployResults)
    (partition : RequestPartition) (overrideConfig : List (String × String))
    (h : partition.cluster.reachable = false) :
    performDeploy deployClient partition overrideConfig
      = errorDeployResults "Cluster is not reachable" partition := by
  simp [performDeploy, h]

theorem performRedeploy_unreachable
    (deployClient : RedeployPayload → Except String RedeployResults)
    (partition : DeploymentPartition)
    (h : partition.partition.cluster.reachable = false) :
    performRedeploy deployClient partition
      = getErrorRedeployResults "Cluster is not reachable" partition := by
  simp [performRedeploy, h]

theorem performDeploy_client_error (deployClient : DeployPayload → Except String DeployResults)
    (partition : RequestPartition) (overrideConfig : List (String × String)) (e : String)
    (hreach : partition.cluster.reachable = true)
    (herr : deployClient (NewDeployPayload
        (partition.deploySpecList.map (fun spec => spec.applicationDeploymentRef))
        overrideConfig) = .error e) :
    performDeploy deployClient partition overrideConfig = errorDeployResults e partition := by
  simp [performDeploy, hreach, herr]

theorem performRedeploy_client_error
    (deployClient : RedeployPayload → Except String RedeployResults)
    (partition : DeploymentPartition) (e : String)
    (hreach : partition.partition.cluster.reachable = true)
    (herr : deployClient (NewRedeployPayload (partition.deploymentInfos.map (fun info =>
        { namespaceName := info.namespaceName, name := info.name }))) = .error e) :
    performRedeploy deployClient partition = getErrorRedeployResults e partition := by
  simp [performRedeploy, hreach, herr]

theorem performDeploy_results_length (deployClient : DeployPayload → Except String DeployResults)
    (partition : RequestPartition) (overrideConfig : List (String × String))
    (h : ∀ payload results, deployClient payload = .ok results →
      results.results.length = payload.applicationIds.length) :
    (performDeploy deployClient partition overrideConfig).results.length
      = partition.deploySpecList.length := by
  cases hreach : partition.cluster.reachable with
  | false => rw [performDeploy_unreachable _ _ _ hreach, errorDeployResults_length]
  | true =>
    simp only [performDeploy, hreach, Bool.not_true, Bool.false_eq_true, if_false]
    cases hc : deployClient (NewDeployPayload
        (partition.deploySpecList.map (fun spec => spec.applicationDeploymentRef))
        overrideConfig) with
    | error e => simp [hc, errorDeployResults_length]
    | ok results =>
      simp only [hc]
      have := h _ _ hc
      simpa [NewDeployPayload] using this

theorem performRedeploy_results_length
    (deployClient : RedeployPayload → Except String RedeployResults)
    (partition : DeploymentPartition)
    (h : ∀ payload results, deployClient payload = .ok results →
      results.results.length = payload.applicationDeploymentRefs.length) :
    (performRedeploy deployClient partition).redeployResults.results.length
      = partition.deploymentInfos.length := by
  cases hreach : partition.partition.cluster.reachable with
  | false => rw [performRedeploy_unreachable _ _ hreach, getErrorRedeployResults_length]
  | true =>
    simp only [performRedeploy, hreach, Bool.not_true, Bool.false_eq_true, if_false]
    cases hc : deployClient (NewRedeployPayload (partition.deploymentInfos.map (fun info =>
        { namespaceName := info.namespaceName, name := info.name }))) with
    | error e => simp [hc, getErrorRedeployResults_length]
    | ok results =>
      simp only [hc]
      have := h _ _ hc
      simpa [NewRedeployPayload, newPartialRedeployResults] using this

theorem dispatched_deploy_flatten_length
    (deployClient : DeployPayload → Except String DeployResults)
    (overrideConfig : List (String × String))
    (h : ∀ payload results, deployClient payload = .ok results →
      results.results.length = payload.applicationIds.length) :
    ∀ partitions : List RequestPartition,
      ((partitions.map (fun p => performDeploy deployClient p overrideConfig)).map
        (fun r => r.results)).flatten.length
      = (partitions.map (fun p => p.deploySpecList.length)).sum
  | [] => rfl
  | p :: ps => by
    simp only [List.map_cons, List.flatten_cons, List.length_append, List.sum_cons]
    rw [performDeploy_results_length deployClient p overrideConfig h,
      dispatched_deploy_flatten_length deployClient overrideConfig h ps]

theorem dispatched_redeploy_flatten_length
    (redeployClient : RedeployPayload → Except String RedeployResults)
    (h : ∀ payload results, redeployClient payload = .ok results →
      results.results.length = payload.applicationDeploymentRefs.length) :
    ∀ partitions : List DeploymentPartition,
      ((partitions.map (fun p => performRedeploy redeployClient p)).map
        (fun r => r.redeployResults.results)).flatten.length
      = (partitions.map (fun p => p.deploymentInfos.length)).sum
  | [] => rfl
  | p :: ps => by
    simp only [List.map_cons, List.flatten_cons, List.length_append, List.sum_cons]
    rw [performRedeploy_results_length redeployClient p h,
      dispatched_redeploy_flatten_length redeployClient h ps]

/-! ## Claim C1: exactly one result entry per dispatched application -/

/-- C1: each partition task emits exactly one bundle and the orchestrator
collects exactly one bundle per partition, so for every arrival order
(permutation of the emitted bundles) the collected list has one bundle per
partition and its flattened results have exactly one entry per dispatched
application, for the deploy and the redeploy dispatcher alike — given that a
successful remote call returns one result per application of its payload. -/
theorem dispatch_one_result_per_application :
    ∀ (deployClient : DeployPayload → Except String DeployResults)
      (redeployClient : RedeployPayload → Except String RedeployResults)
      (overrideConfig : List (String × String))
      (partitions : List RequestPartition) (rpartitions : List DeploymentPartition)
      (dispatched arrival : List DeployResults)
      (rdispatched rarrival : List PartialRedeployResult),
      (∀ payload results, deployClient payload = .ok results →
        results.results.length = payload.applicationIds.length) →
      (∀ payload results, redeployClient payload = .ok results →
        results.results.length = payload.applicationDeploymentRefs.length) →
      deployToReachableClusters (fun _ => deployClient) partitions overrideConfig
        = .ok dispatched →
      redeployFromReachableClusters (fun _ => redeployClient) rpartitions = .ok rdispatched →
      List.Perm arrival dispatched →
      List.Perm rarrival rdispatched →
      (arrival.length = partitions.length
        ∧ (arrival.map (fun r => r.results)).flatten.length
            = (partitions.map (fun p => p.deploySpecList.length)).sum)
      ∧ (rarrival.length = rpartitions.length
        ∧ (rarrival.map (fun r => r.redeployResults.results)).flatten.length
            = (rpartitions.map (fun p => p.deploymentInfos.length)).sum) := by
  intro deployClient redeployClient overrideConfig partitions rpartitions
    dispatched arrival rdispatched rarrival hd hr hdisp hrdisp harr hrarr
  have hdisp' : dispatched
      = partitions.map (fun p => performDeploy deployClient p overrideConfig) := by
    simpa [deployToReachableClusters] using hdisp.symm
  have hrdisp' : rdispatched
      = rpartitions.map (fun p => performRedeploy redeployClient p) := by
    simpa [redeployFromReachableClusters] using hrdisp.symm
  subst hdisp' hrdisp'
  refine ⟨⟨?_, ?_⟩, ?_, ?_⟩
  · rw [harr.length_eq, List.length_map]
  · rw [((harr.map (fun r => r.results)).flatten).length_eq]
    exact dispatched_deploy_flatten_length deployClient overrideConfig hd partitions
  · rw [hrarr.length_eq, List.length_map]
  · rw [((hrarr.map (fun r => r.redeployResults.results)).flatten).length_eq]
    exact dispatched_redeploy_flatten_length redeployClient hr rpartitions

/-- C1 witness: two deploy partitions and two redeploy partitions with a
procedure client returning one result per application, the bundles arriving
in swapped order. -/
theorem dispatch_one_result_per_application_witness :
    (([performDeploy wOkDeployClient wPartitionDown [],
        performDeploy wOkDeployClient wPartitionUp []].length
          = [wPartitionUp, wPartitionDown].length)
      ∧ (([performDeploy wOkDeployClient wPartitionDown [],
            performDeploy wOkDeployClient wPartitionUp []].map (fun r => r.results)).flatten.length
          = ([wPartitionUp, wPartitionDown].map (fun p => p.deploySpecList.length)).sum))
    ∧ (([performRedeploy wOkRedeployClient wDeploymentPartitionDown,
          performRedeploy wOkRedeployClient wDeploymentPartitionUp].length
          = [wDeploymentPartitionUp, wDeploymentPartitionDown].length)
      ∧ (([performRedeploy wOkRedeployClient wDeploymentPartitionDown,
            performRedeploy wOkRedeployClient wDeploymentPartitionUp].map
              (fun r => r.redeployResults.results)).flatten.length
          = ([wDeploymentPartitionUp, wDeploymentPartitionDown].map
              (fun p => p.deploymentInfos.length)).sum)) :=
  dispatch_one_result_per_application wOkDeployClient wOkRedeployClient []
    [wPartitionUp, wPartitionDown] [wDeploymentPartitionUp, wDeploymentPartitionDown]
    ([wPartitionUp, wPartitionDown].map (fun p => performDeploy wOkDeployClient p []))
    [performDeploy wOkDeployClient wPartitionDown [],
      performDeploy wOkDeployClient wPartitionUp []]
    ([wDeploymentPartitionUp, wDeploymentPartitionDown].map
      (fun p => performRedeploy wOkRedeployClient p))
    [performRedeploy wOkRedeployClient wDeploymentPartitionDown,
      performRedeploy wOkRedeployClient wDeploymentPartitionUp]
    (by
      intro payload results h
      simp only [wOkDeployClient, Except.ok.injEq] at h
      rw [← h]
      simp)
    (by
      intro payload results h
      simp only [wOkRedeployClient, Except.ok.injEq] at h
      rw [← h]
      simp)
    rfl rfl (List.Perm.swap _ _ []) (List.Perm.swap _ _ [])

/-! ## Claim C2: unreachable partitions fail locally without a remote call -/

/-- C2: for a partition whose cluster is not reachable, the task produces one
failed result per application with reason "Cluster is not reachable", and the
outcome does not depend on the remote client or the override payload at all
(no call is made), for the deploy and the redeploy dispatcher alike. -/
theorem unreachable_partition_results :
    ∀ (deployClient deployClient₂ : DeployPayload → Except String DeployResults)
      (overrideConfig overrideConfig₂ : List (String × String))
      (partition : RequestPartition)
      (redeployClient redeployClient₂ : RedeployPayload → Except String RedeployResults)
      (rpartition : DeploymentPartition),
      partition.cluster.reachable = false →
      rpartition.partition.cluster.reachable = false →
      (performDeploy deployClient partition overrideConfig
          = errorDeployResults "Cluster is not reachable" partition
        ∧ performDeploy deployClient partition overrideConfig
            = performDeploy deployClient₂ partition overrideConfig₂
        ∧ (performDeploy deployClient partition overrideConfig).results.length
            = partition.deploySpecList.length
        ∧ ∀ r ∈ (performDeploy deployClient partition overrideConfig).results,
            r.success = false ∧ r.reason = "Cluster is not reachable")
      ∧ (performRedeploy redeployClient rpartition
          = getErrorRedeployResults "Cluster is not reachable" rpartition
        ∧ performRedeploy redeployClient rpartition = performRedeploy redeployClient₂ rpartition
        ∧ (performRedeploy redeployClient rpartition).redeployResults.results.length
            = rpartition.deploymentInfos.length
        ∧ ∀ r ∈ (performRedeploy redeployClient rpartition).redeployResults.results,
            r.success = false ∧ r.reason = "Cluster is not reachable") := by
  intro deployClient deployClient₂ overrideConfig overrideConfig₂ partition
    redeployClient redeployClient₂ rpartition h hr
  have e1 := performDeploy_unreachable deployClient partition overrideConfig h
  have e2 := performDeploy_unreachable deployClient₂ partition overrideConfig₂ h
  have f1 := performRedeploy_unreachable redeployClient rpartition hr
  have f2 := performRedeploy_unreachable redeployClient₂ rpartition hr
  refine ⟨⟨e1, e1.trans e2.symm, ?_, ?_⟩, f1, f1.trans f2.symm, ?_, ?_⟩
  · rw [e1, errorDeployResults_length]
  · rw [e1]
    intro r hrm
    have := errorDeployResults_mem "Cluster is not reachable" partition r hrm
    exact ⟨this.2.2.1, this.2.2.2⟩
  · rw [f1, getErrorRedeployResults_length]
  · rw [f1]
    exact getErrorRedeployResults_mem "Cluster is not reachable" rpartition

/-- C2 witness: the unreachable deploy partition and redeploy partition, with
two different clients each, evaluated concretely. -/
theorem unreachable_partition_results_witness :
    (performDeploy wFailDeployClient wPartitionDown []
        = errorDeployResults "Cluster is not reachable" wPartitionDown
      ∧ performDeploy wFailDeployClient wPartitionDown []
          = performDeploy wOkDeployClient wPartitionDown [("f.json", "1")]
      ∧ (performDeploy wFailDeployClient wPartitionDown []).results.length
          = wPartitionDown.deploySpecList.length
      ∧ ∀ r ∈ (performDeploy wFailDeployClient wPartitionDown []).results,
          r.success = false ∧ r.reason = "Cluster is not reachable")
    ∧ (performRedeploy wFailRedeployClient wDeploymentPartitionDown
        = getErrorRedeployResults "Cluster is not reachable" wDeploymentPartitionDown
      ∧ performRedeploy wFailRedeployClient wDeploymentPartitionDown
          = performRedeploy wOkRedeployClient wDeploymentPartitionDown
      ∧ (performRedeploy wFailRedeployClient wDeploymentPartitionDown).redeployResults.results.length
          = wDeploymentPartitionDown.deploymentInfos.length
      ∧ ∀ r ∈ (performRedeploy wFailRedeployClient wDeploymentPartitionDown).redeployResults.results,
          r.success = false ∧ r.reason = "Cluster is not reachable") :=
  unreachable_partition_results wFailDeployClient wOkDeployClient [] [("f.json", "1")]
    wPartitionDown wFailRedeployClient wOkRedeployClient wDeploymentPartitionDown
    (by decide) (by decide)

/-! ## Claim C3: remote invocation errors become synthetic failed results -/

/-- C3: when the remote invocation of a reachable partition fails, the task
produces one synthetic failed result per application of the partition, each
carrying the error message as reason and (on the deploy side) the non-empty
sentinel "-" as deploy id; the dispatcher still returns a normal `.ok` list
with one bundle per partition, so the error neither propagates past the
dispatcher nor aborts sibling partitions. -/
theorem client_error_synthetic_results :
    ∀ (deployClient : DeployPayload → Except String DeployResults)
      (overrideConfig : List (String × String)) (partition : RequestPartition) (e : String)
      (redeployClient : RedeployPayload → Except String RedeployResults)
      (rpartition : DeploymentPartition) (e₂ : String)
      (partitions : List RequestPartition) (rpartitions : List DeploymentPartition),
      partition.cluster.reachable = true →
      deployClient (NewDeployPayload
          (partition.deploySpecList.map (fun spec => spec.applicationDeploymentRef))
          overrideConfig) = .error e →
      rpartition.partition.cluster.reachable = true →
      redeployClient (NewRedeployPayload (rpartition.deploymentInfos.map (fun info =>
          { namespaceName := info.namespaceName, name := info.name }))) = .error e₂ →
      (performDeploy deployClient partition overrideConfig = errorDeployResults e partition
        ∧ (performDeploy deployClient partition overrideConfig).results.length
            = partition.deploySpecList.length
        ∧ (∀ r ∈ (performDeploy deployClient partition overrideConfig).results,
            r.success = false ∧ r.reason = e ∧ r.deployId = "-" ∧ r.deployId ≠ "")
        ∧ ∃ l, deployToReachableClusters (fun _ => deployClient) partitions overrideConfig
              = .ok l
            ∧ l.length = partitions.length)
      ∧ (performRedeploy redeployClient rpartition = getErrorRedeployResults e₂ rpartition
        ∧ (performRedeploy redeployClient rpartition).redeployResults.results.length
            = rpartition.deploymentInfos.length
        ∧ (∀ r ∈ (performRedeploy redeployClient rpartition).redeployResults.results,
            r.success = false ∧ r.reason = e₂)
        ∧ ∃ l, redeployFromReachableClusters (fun _ => redeployClient) rpartitions = .ok l
            ∧ l.length = rpartitions.length) := by
  intro deployClient overrideConfig partition e redeployClient rpartition e₂
    partitions rpartitions hreach herr hreach₂ herr₂
  have e1 := performDeploy_client_error deployClient partition overrideConfig e hreach herr
  have f1 := performRedeploy_client_error redeployClient rpartition e₂ hreach₂ herr₂
  refine ⟨⟨e1, ?_, ?_, ?_⟩, f1, ?_, ?_, ?_⟩
  · rw [e1, errorDeployResults_length]
  · rw [e1]
    intro r hrm
    have := errorDeployResults_mem e partition r hrm
    refine ⟨this.2.2.1, this.2.2.2, this.1, ?_⟩
    rw [this.1]
    decide
  · exact ⟨_, rfl, List.length_map _ _⟩
  · rw [f1, getErrorRedeployResults_length]
  · rw [f1]
    exact getErrorRedeployResults_mem e₂ rpartition
  · exact ⟨_, rfl, List.length_map _ _⟩

/-- C3 witness: a reachable partition whose client fails with "connection
refused", alongside a sibling unreachable partition, evaluated concretely. -/
theorem client_error_synthetic_results_witness :
    (performDeploy wFailDeployClient wPartitionUp []
        = errorDeployResults "connection refused" wPartitionUp
      ∧ (performDeploy wFailDeployClient wPartitionUp []).results.length
          = wPartitionUp.deploySpecList.length
      ∧ (∀ r ∈ (performDeploy wFailDeployClient wPartitionUp []).results,
          r.success = false ∧ r.reason = "connection refused"
            ∧ r.deployId = "-" ∧ r.deployId ≠ "")
      ∧ ∃ l, deployToReachableClusters (fun _ => wFailDeployClient)
            [wPartitionUp, wPartitionDown] [] = .ok l
          ∧ l.length = [wPartitionUp, wPartitionDown].length)
    ∧ (performRedeploy wFailRedeployClient wDeploymentPartitionUp
        = getErrorRedeployResults "connection refused" wDeploymentPartitionUp
      ∧ (performRedeploy wFailRedeployClient wDeploymentPartitionUp).redeployResults.results.length
          = wDeploymentPartitionUp.deploymentInfos.length
      ∧ (∀ r ∈ (performRedeploy wFailRedeployClient wDeploymentPartitionUp).redeployResults.results,
          r.success = false ∧ r.reason = "connection refused")
      ∧ ∃ l, redeployFromReachableClusters (fun _ => wFailRedeployClient)
            [wDeploymentPartitionUp, wDeploymentPartitionDown] = .ok l
          ∧ l.length = [wDeploymentPartitionUp, wDeploymentPartitionDown].length) :=
  client_error_synthetic_results wFailDeployClient [] wPartitionUp "connection refused"
    wFailRedeployClient wDeploymentPartitionUp "connection refused"
    [wPartitionUp, wPartitionDown] [wDeploymentPartitionUp, wDeploymentPartitionDown]
    (by decide) rfl (by decide) rfl

/-! ## Partitioner lemmas -/

theorem appendInfoToPartition_keys (k : deploymentPartitionID) (info : DeploymentInfo) :
    ∀ pm : List (deploymentPartitionID × DeploymentPartition),
      (appendInfoToPartition pm k info).map Prod.fst = pm.map Prod.fst
  | [] => rfl
  | (k', p) :: rest => by
    simp only [appendInfoToPartition]
    split
    · simp
    · simp [appendInfoToPartition_keys k info rest]

theorem appendInfoToPartition_flatten_perm (k : deploymentPartitionID) (info : DeploymentInfo) :
    ∀ pm : List (deploymentPartitionID × DeploymentPartition),
      containsPartitionID pm k = true →
      List.Perm ((appendInfoToPartition pm k info).map (fun e => e.2.deploymentInfos)).flatten
        (info :: (pm.map (fun e => e.2.deploymentInfos)).flatten)
  | [], h => by simp [containsPartitionID] at h
  | (k', p) :: rest, h => by
    simp only [appendInfoToPartition]
    split
    · simp only [List.map_cons, List.flatten_cons]
      have : p.deploymentInfos ++ [info] ++ (rest.map (fun e => e.2.deploymentInfos)).flatten
          = p.deploymentInfos ++ info :: (rest.map (fun e => e.2.deploymentInfos)).flatten := by
        simp
      rw [this]
      exact List.perm_middle
    · have hrest : containsPartitionID rest k = true := by
        simp only [containsPartitionID, List.any_cons] at h
        rcases Bool.or_eq_true_iff.mp h with h' | h'
        · exact absurd (of_decide_eq_true h') (by assumption)
        · exact h'
      simp only [List.map_cons, List.flatten_cons]
      exact ((appendInfoToPartition_flatten_perm k info rest hrest).append_left
        p.deploymentInfos).trans List.perm_middle

theorem appendInfoToPartition_keyinv (info : DeploymentInfo)
    (pm : List (deploymentPartitionID × DeploymentPartition))
    (h : ∀ e ∈ pm, ∀ i ∈ e.2.deploymentInfos,
      e.1 = { namespaceName := i.namespaceName, clusterName := i.clusterName }) :
    ∀ e ∈ appendInfoToPartition pm
        { namespaceName := info.namespaceName, clusterName := info.clusterName } info,
      ∀ i ∈ e.2.deploymentInfos,
        e.1 = { namespaceName := i.namespaceName, clusterName := i.clusterName } := by
  induction pm with
  | nil => simp [appendInfoToPartition]
  | cons hd rest ih =>
    obtain ⟨k', p⟩ := hd
    have hhd := h (k', p) (List.mem_cons_self _ _)
    have hrest : ∀ e ∈ rest, ∀ i ∈ e.2.deploymentInfos,
        e.1 = { namespaceName := i.namespaceName, clusterName := i.clusterName } :=
      fun e he => h e (List.mem_cons_of_mem _ he)
    simp only [appendInfoToPartition]
    split
    case isTrue heq =>
      intro e he i hi
      rcases List.mem_cons.mp he with rfl | he'
      · rcases List.mem_append.mp hi with hi' | hi'
        · exact hhd i hi'
        · have : i = info := by simpa using hi'
          subst this
          exact heq
      · exact hrest e he' i hi
    case isFalse heq =>
      intro e he i hi
      rcases List.mem_cons.mp he with rfl | he'
      · exact hhd i hi
      · exact ih hrest e he' i hi

theorem containsPartitionID_false_not_mem
    (pm : List (deploymentPartitionID × DeploymentPartition)) (k : deploymentPartitionID)
    (h : containsPartitionID pm k = false) : k ∉ pm.map Prod.fst := by
  intro hmem
  obtain ⟨e, he, hek⟩ := List.mem_map.mp hmem
  have : pm.any (fun e => decide (e.1 = k)) = true :=
    List.any_eq_true.mpr ⟨e, he, decide_eq_true hek⟩
  simp only [containsPartitionID] at h
  rw [h] at this
  cases this

theorem containsPartitionID_append_self
    (pm : List (deploymentPartitionID × DeploymentPartition)) (k : deploymentPartitionID)
    (p : DeploymentPartition) :
    containsPartitionID (pm ++ [(k, p)]) k = true := by
  simp [containsPartitionID]

theorem createDeploymentPartitionsLoop_spec (auroraConfig overrideToken : String)
    (clusters : List (String × Cluster)) :
    ∀ (infos : List DeploymentInfo) (pm res : List (deploymentPartitionID × DeploymentPartition)),
      createDeploymentPartitionsLoop auroraConfig overrideToken clusters pm infos = .ok res →
      (∀ e ∈ pm, ∀ i ∈ e.2.deploymentInfos,
        e.1 = { namespaceName := i.namespaceName, clusterName := i.clusterName }) →
      (pm.map Prod.fst).Nodup →
      (∀ e ∈ res, ∀ i ∈ e.2.deploymentInfos,
        e.1 = { namespaceName := i.namespaceName, clusterName := i.clusterName })
      ∧ (res.map Prod.fst).Nodup
      ∧ List.Perm ((res.map (fun e => e.2.deploymentInfos)).flatten)
          (((pm.map (fun e => e.2.deploymentInfos)).flatten) ++ infos)
  | [], pm, res, hok, hkey, hnodup => by
    have : pm = res := by simpa [createDeploymentPartitionsLoop] using hok
    subst this
    exact ⟨hkey, hnodup, by simp⟩
  | info :: rest, pm, res, hok, hkey, hnodup => by
    simp only [createDeploymentPartitionsLoop] at hok
    by_cases hc : containsPartitionID pm
        { namespaceName := info.namespaceName, clusterName := info.clusterName } = true
    · rw [if_pos hc] at hok
      have hkey₁ := appendInfoToPartition_keyinv info pm hkey
      have hnodup₁ : ((appendInfoToPartition pm
          { namespaceName := info.namespaceName, clusterName := info.clusterName } info).map
            Prod.fst).Nodup := by
        rw [appendInfoToPartition_keys]
        exact hnodup
      obtain ⟨hkr, hnr, hpr⟩ := createDeploymentPartitionsLoop_spec auroraConfig overrideToken
        clusters rest _ res hok hkey₁ hnodup₁
      refine ⟨hkr, hnr, ?_⟩
      have h1 := appendInfoToPartition_flatten_perm
        { namespaceName := info.namespaceName, clusterName := info.clusterName } info pm hc
      exact hpr.trans ((h1.append_right rest).trans List.perm_middle.symm)
    · rw [if_neg hc] at hok
      cases hl : lookupCluster clusters info.clusterName with
      | none => rw [hl] at hok; cases hok
      | some cluster =>
        rw [hl] at hok
        set k : deploymentPartitionID :=
          { namespaceName := info.namespaceName, clusterName := info.clusterName } with hk
        set pm' := pm ++ [(k, newDeploymentPartition [] cluster auroraConfig overrideToken)]
          with hpm'
        have hkey' : ∀ e ∈ pm', ∀ i ∈ e.2.deploymentInfos,
            e.1 = { namespaceName := i.namespaceName, clusterName := i.clusterName } := by
          intro e he i hi
          rcases List.mem_append.mp he with he' | he'
          · exact hkey e he' i hi
          · have : e = (k, newDeploymentPartition [] cluster auroraConfig overrideToken) := by
              simpa using he'
            subst this
            simp [newDeploymentPartition] at hi
        have hnodup' : (pm'.map Prod.fst).Nodup := by
          rw [hpm', List.map_append]
          simp only [List.map_cons, List.map_nil]
          rw [List.nodup_append]
          refine ⟨hnodup, List.nodup_singleton _, ?_⟩
          intro a ha hb
          have : a = k := by simpa using hb
          subst this
          exact containsPartitionID_false_not_mem pm k (Bool.not_eq_true _ ▸ hc) ha
        have hcontains' : containsPartitionID pm' k = true :=
          containsPartitionID_append_self pm k _
        have hkey₁ := appendInfoToPartition_keyinv info pm' hkey'
        have hnodup₁ : ((appendInfoToPartition pm' k info).map Prod.fst).Nodup := by
          rw [appendInfoToPartition_keys]
          exact hnodup'
        obtain ⟨hkr, hnr, hpr⟩ := createDeploymentPartitionsLoop_spec auroraConfig overrideToken
          clusters rest _ res hok hkey₁ hnodup₁
        refine ⟨hkr, hnr, ?_⟩
        have hJ : ((pm'.map (fun e => e.2.deploymentInfos)).flatten)
            = ((pm.map (fun e => e.2.deploymentInfos)).flatten) := by
          rw [hpm', List.map_append]
          simp [newDeploymentPartition]
        have h1 := appendInfoToPartition_flatten_perm k info pm' hcontains'
        rw [hJ] at h1
        exact hpr.trans ((h1.append_right rest).trans List.perm_middle.symm)

theorem entries_eq_of_fst_eq {κ β : Type} :
    ∀ l : List (κ × β), (l.map Prod.fst).Nodup →
      ∀ e₁ ∈ l, ∀ e₂ ∈ l, e₁.1 = e₂.1 → e₁ = e₂
  | [], _, _, h, _, _, _ => absurd h (List.not_mem_nil _)
  | a :: l, hnodup, e₁, he₁, e₂, he₂, hfst => by
    rw [List.map_cons, List.nodup_cons] at hnodup
    obtain ⟨hha, hl⟩ := hnodup
    rcases List.mem_cons.mp he₁ with rfl | he₁'
    · rcases List.mem_cons.mp he₂ with rfl | he₂'
      · rfl
      · refine absurd ?_ hha
        rw [hfst]
        exact List.mem_map_of_mem Prod.fst he₂'
    · rcases List.mem_cons.mp he₂ with rfl | he₂'
      · refine absurd ?_ hha
        rw [← hfst]
        exact List.mem_map_of_mem Prod.fst he₁'
      · exact entries_eq_of_fst_eq l hl e₁ he₁' e₂ he₂' hfst

/-! ## Claim C4: partition membership -/

/-- C4: on success, partitioning assigns each deployment reference to exactly
one partition (the flattened partitions are a permutation of the input),
every partition holds only references of its own (cluster, namespace)
destination key, the keys are pairwise distinct, two references with
identical cluster and namespace land in the same partition, and two
references differing in cluster or namespace land in distinct partitions. -/
theorem createDeploymentPartitions_membership :
    ∀ (auroraConfig overrideToken : String) (clusters : List (String × Cluster))
      (deployInfos : List DeploymentInfo)
      (pm : List (deploymentPartitionID × DeploymentPartition)),
      createDeploymentPartitions auroraConfig overrideToken clusters deployInfos = .ok pm →
      partitionInvariants deployInfos pm := by
  intro auroraConfig overrideToken clusters deployInfos pm h
  obtain ⟨hkey, hnodup, hperm⟩ := createDeploymentPartitionsLoop_spec auroraConfig overrideToken
    clusters deployInfos [] pm h (by simp) (by simp)
  refine ⟨by simpa using hperm, hkey, hnodup, ?_, ?_⟩
  · intro e₁ he₁ e₂ he₂ i₁ hi₁ i₂ hi₂ hc hn
    have k1 := hkey e₁ he₁ i₁ hi₁
    have k2 := hkey e₂ he₂ i₂ hi₂
    have hfst : e₁.1 = e₂.1 := by
      rw [k1, k2, hc, hn]
    exact entries_eq_of_fst_eq pm hnodup e₁ he₁ e₂ he₂ hfst
  · intro e₁ he₁ e₂ he₂ i₁ hi₁ i₂ hi₂ hne heq
    rw [heq] at hi₁
    have k1 := hkey e₂ he₂ i₁ hi₁
    have k2 := hkey e₂ he₂ i₂ hi₂
    rw [k2] at k1
    rcases hne with hne | hne
    · exact hne (congrArg deploymentPartitionID.clusterName k1).symm
    · exact hne (congrArg deploymentPartitionID.namespaceName k1).symm

/-- C4 witness: three concrete references, two sharing a destination and one
differing only in namespace, partitioned against the concrete registry. -/
theorem createDeploymentPartitions_membership_witness :
    partitionInvariants c4infos c4pm :=
  createDeploymentPartitions_membership "aff" "" wClusterRegistry c4infos c4pm rfl

/-! ## Claim C7: fuzzy resolution -/

/-- C7 (spec-modelled): an exact match resolves to that single candidate no
matter how many other candidates contain the term as a substring; otherwise
the substring matches are collected, an empty collection is a not-found
error, more than one match without the all-matches mode is an ambiguity
error carrying the candidate list, and any other collection resolves to the
matches. -/
theorem resolve_exact_match_and_ambiguity :
    ∀ (searchTerm : String) (candidatePool : List String) (allMatches : Bool),
      (candidatePool.contains searchTerm = true →
        resolve searchTerm candidatePool allMatches = .ok [searchTerm])
      ∧ (candidatePool.contains searchTerm = false →
          (candidatePool.filter (fun candidate => strContains candidate searchTerm) = [] →
            resolve searchTerm candidatePool allMatches = .error (.notFound searchTerm))
          ∧ (1 < (candidatePool.filter
                (fun candidate => strContains candidate searchTerm)).length →
              allMatches = false →
              resolve searchTerm candidatePool allMatches
                = .error (.ambiguous searchTerm
                    (candidatePool.filter (fun candidate => strContains candidate searchTerm))))
          ∧ (candidatePool.filter (fun candidate => strContains candidate searchTerm) ≠ [] →
              ((candidatePool.filter
                  (fun candidate => strContains candidate searchTerm)).length ≤ 1
                ∨ allMatches = true) →
              resolve searchTerm candidatePool allMatches
                = .ok (candidatePool.filter
                    (fun candidate => strContains candidate searchTerm)))) := by
  intro searchTerm candidatePool allMatches
  constructor
  · intro h
    simp only [resolve]
    rw [if_pos h]
  · intro h
    have h' : ¬ (candidatePool.contains searchTerm = true) := by
      rw [h]
      exact Bool.false_ne_true
    refine ⟨?_, ?_, ?_⟩
    · intro hnil
      simp only [resolve]
      rw [if_neg h', if_pos (show (candidatePool.filter
        (fun candidate => strContains candidate searchTerm)).isEmpty = true by rw [hnil]; rfl)]
    · intro hlen ham
      have hnempty : ¬ ((candidatePool.filter
          (fun candidate => strContains candidate searchTerm)).isEmpty = true) := by
        rw [List.isEmpty_iff]
        intro hnil
        rw [hnil] at hlen
        exact absurd hlen (by decide)
      have hcond : (decide (1 < (candidatePool.filter
          (fun candidate => strContains candidate searchTerm)).length) && !allMatches) = true := by
        rw [ham]
        simp [hlen]
      simp only [resolve]
      rw [if_neg h', if_neg hnempty, if_pos hcond]
    · intro hne hsmall
      have hnempty : ¬ ((candidatePool.filter
          (fun candidate => strContains candidate searchTerm)).isEmpty = true) := by
        rw [List.isEmpty_iff]
        exact hne
      have hcond : ¬ ((decide (1 < (candidatePool.filter
          (fun candidate => strContains candidate searchTerm)).length) && !allMatches) = true) := by
        rcases hsmall with hsmall | hsmall
        · have : ¬ 1 < (candidatePool.filter
              (fun candidate => strContains candidate searchTerm)).length :=
            not_lt.mpr hsmall
          simp [this]
        · simp [hsmall]
      simp only [resolve]
      rw [if_neg h', if_neg hnempty, if_neg hcond]

/-- C7 witness: the two resolver examples of the specification, a pool where
an exact match beats a substring superset and a pool where a bare substring
search is ambiguous. -/
theorem resolve_exact_match_and_ambiguity_witness :
    resolve "foo" ["foo", "foobar"] false = .ok ["foo"]
    ∧ resolve "oo" ["foo", "boo"] false = .error (.ambiguous "oo" ["foo", "boo"]) := by
  constructor
  · exact (resolve_exact_match_and_ambiguity "foo" ["foo", "foobar"] false).1 (by decide)
  · have hfil : ["foo", "boo"].filter (fun candidate => strContains candidate "oo")
        = ["foo", "boo"] := by decide
    have h := ((resolve_exact_match_and_ambiguity "oo" ["foo", "boo"] false).2 (by decide)).2.1
      (by rw [hfil]; decide) rfl
    rw [hfil] at h
    exact h

/-! ## Claim C8: exclude filtering -/

theorem filterExcludes_ok (compile : String → Option (String → Bool))
    (m : String → String → Bool) :
    ∀ (expressions applications : List String),
      (∀ e ∈ expressions, compile e = some (m e)) →
      filterExcludes compile expressions applications
        = .ok (applications.filter (fun app => expressions.all (fun e => !(m e app))))
  | [], apps, _ => by
    simp only [filterExcludes, List.foldlM_nil, List.all_nil, List.filter_true]
    rfl
  | e :: es, apps, h => by
    have he := h e (List.mem_cons_self _ _)
    have hrest : ∀ e' ∈ es, compile e' = some (m e') :=
      fun e' h' => h e' (List.mem_cons_of_mem _ h')
    rw [filterExcludes, List.foldlM_cons, he]
    show filterExcludes compile es (apps.filter (fun app => !(m e app))) = _
    rw [filterExcludes_ok compile m es _ hrest, List.filter_filter]
    exact congrArg Except.ok (List.filter_congr (fun a _ => by
      rw [List.all_cons, Bool.and_comm]))

theorem filterExcludes_append (compile : String → Option (String → Bool)) :
    ∀ (expressions₁ expressions₂ applications : List String),
      filterExcludes compile (expressions₁ ++ expressions₂) applications
        = match filterExcludes compile expressions₁ applications with
          | .ok l => filterExcludes compile expressions₂ l
          | .error msg => .error msg
  | [], _, _ => rfl
  | x :: xs, e₂, apps => by
    cases hx : compile x with
    | none =>
      simp only [List.cons_append, filterExcludes, List.foldlM_cons, hx]
      rfl
    | some r =>
      simp only [List.cons_append, filterExcludes, List.foldlM_cons, hx]
      exact filterExcludes_append compile xs e₂ (apps.filter (fun app => !(r app)))

/-- C8: a candidate survives the exclude filter exactly when no pattern in
the supplied list matches it (the conjunction of all non-matches, applied in
order), and appending further patterns only narrows the surviving list. The
external regular-expression engine is the `compile` parameter. -/
theorem filterExcludes_characterization :
    ∀ (compile : String → Option (String → Bool)) (m : String → String → Bool)
      (expressions applications : List String),
      (∀ e ∈ expressions, compile e = some (m e)) →
      (filterExcludes compile expressions applications
          = .ok (applications.filter (fun app => expressions.all (fun e => !(m e app)))))
      ∧ (∀ app, app ∈ applications.filter (fun app => expressions.all (fun e => !(m e app)))
          ↔ (app ∈ applications ∧ ∀ e ∈ expressions, m e app = false))
      ∧ ∀ (expressions₂ : List String) (m₂ : String → String → Bool),
          (∀ e ∈ expressions₂, compile e = some (m₂ e)) →
          ∃ l₂, filterExcludes compile (expressions ++ expressions₂) applications = .ok l₂
            ∧ l₂.Sublist (applications.filter
                (fun app => expressions.all (fun e => !(m e app)))) := by
  intro compile m expressions applications h
  refine ⟨filterExcludes_ok compile m expressions applications h, ?_, ?_⟩
  · intro app
    simp [List.mem_filter, List.all_eq_true]
  · intro expressions₂ m₂ h₂
    refine ⟨(applications.filter (fun app => expressions.all (fun e => !(m e app)))).filter
        (fun app => expressions₂.all (fun e => !(m₂ e app))), ?_, List.filter_sublist _⟩
    rw [filterExcludes_append compile expressions expressions₂ applications,
      filterExcludes_ok compile m expressions applications h]
    exact filterExcludes_ok compile m₂ expressions₂ _ h₂

/-- C8 witness: one exclude pattern matching names containing "bar",
evaluated on two applications, with further narrowing patterns quantified. -/
theorem filterExcludes_characterization_witness :
    (filterExcludes (fun e => some (fun s => strContains s e)) ["bar"] ["foo/bar", "foo/baz"]
        = .ok (["foo/bar", "foo/baz"].filter
            (fun app => ["bar"].all (fun e => !(strContains app e)))))
    ∧ (∀ app, app ∈ ["foo/bar", "foo/baz"].filter
          (fun app => ["bar"].all (fun e => !(strContains app e)))
        ↔ (app ∈ ["foo/bar", "foo/baz"] ∧ ∀ e ∈ ["bar"], strContains app e = false))
    ∧ ∀ (expressions₂ : List String) (m₂ : String → String → Bool),
        (∀ e ∈ expressions₂, (fun e => some (fun s => strContains s e)) e = some (m₂ e)) →
        ∃ l₂, filterExcludes (fun e => some (fun s => strContains s e))
            (["bar"] ++ expressions₂) ["foo/bar", "foo/baz"] = .ok l₂
          ∧ l₂.Sublist (["foo/bar", "foo/baz"].filter
              (fun app => ["bar"].all (fun e => !(strContains app e)))) :=
  filterExcludes_characterization (fun e => some (fun s => strContains s e))
    (fun e s => strContains s e) ["bar"] ["foo/bar", "foo/baz"] (fun _ _ => rfl)

/-! ## Claim C9: override parsing on an entry lacking a separator -/

/-- C9 (code bug): when the first override entry holds no ':' separator,
`strings.IndexByte` yields -1 and the slice expression `overrides[i][:-1]`
makes `parseOverride` terminate abnormally with a runtime panic instead of
returning a validation error, for every JSON validity oracle. -/
theorem parseOverride_missing_separator_panics :
    ∀ (jsonValid : String → Bool) (o : String) (rest : List String),
      stringsIndexByte o ':' < 0 →
      parseOverride jsonValid (o :: rest)
        = .panics "runtime error: slice bounds out of range [:-1]" := by
  intro jsonValid o rest h
  simp [parseOverride, parseOverrideLoop, h]

/-- C9 witness: the concrete entry "foo.json" has no separator and makes
`parseOverride` panic. -/
theorem parseOverride_missing_separator_panics_witness :
    stringsIndexByte "foo.json" ':' < 0
    ∧ parseOverride (fun _ => true) ["foo.json"]
        = .panics "runtime error: slice bounds out of range [:-1]" :=
  ⟨by decide,
   parseOverride_missing_separator_panics (fun _ => true) "foo.json" [] (by decide)⟩
